import Mathlib

/-!
Shallow embedding of the order / inventory / day-session core of the
`menubar` point-of-sale application (`src-tauri/src/commands/orders.rs`,
`src-tauri/src/commands/reports.rs`, data model in
`src-tauri/src/models.rs`, schema in `src-tauri/src/db.rs`).

The SQLite store is modelled as explicit lists of rows; every Tauri
command becomes a function `Store → … → Except Err View × Store`
returning both the command's result and the store as left behind by the
command (so a command that fails after having executed writes would
return the partially-mutated store).  `f64` money amounts are modelled
as exact rationals (`Rat`), `i32`/`i64` machine integers as `Int`
(no arithmetic in the translated code can overflow the 64-bit range on
the inputs the program accepts, and none of it is modular).
`query_row` on a multi-row result returns the first matching row, hence
`List.find?`; an SQL `UPDATE … WHERE` becomes `List.map` guarded by the
`WHERE` predicate and `DELETE … WHERE` becomes `List.filter` with the
negated predicate.  The wall clock (`CURRENT_TIMESTAMP`,
`chrono::Local::now`) is modelled by the two store fields `nowTs` and
`today`, constant during a single command.
-/

namespace Menubar

/-- Row of the `products` table (`db.rs` lines 39-49, `models.rs` `Product`).
`quantity` is the quantity on hand (`i32`, no CHECK constraint in the
schema, hence `Int`). -/
structure ProductRow where
  id : Int
  name : String
  price : Rat
  quantity : Int
  deriving Repr, DecidableEq

/-- Row of the `staff` table (only the columns the modelled commands read). -/
structure StaffRow where
  id : Int
  name : String
  deriving Repr, DecidableEq

/-- Row of the `orders` table (`db.rs` lines 59-71).  `createdDate` models
`date(created_at, 'localtime')` for the row and `createdAt` the raw
`created_at` value. -/
structure OrderRow where
  id : Int
  staffId : Int
  tableNumber : Int
  total : Rat
  customerName : Option String
  notes : Option String
  status : String
  sessionId : Option Int
  createdDate : String
  createdAt : String
  deriving Repr, DecidableEq

/-- Row of the `order_items` table (`db.rs` lines 72-82). -/
structure ItemRow where
  id : Int
  orderId : Int
  productId : Int
  quantity : Int
  priceAtSale : Rat
  deriving Repr, DecidableEq

/-- Row of the `day_sessions` table (`db.rs` migration, `models.rs`
`DaySession`). -/
structure SessionRow where
  id : Int
  date : Option String
  startedBy : Int
  startedAt : String
  isActive : Bool
  closedAt : Option String
  totalRevenue : Option Rat
  totalOrders : Option Int
  deriving Repr, DecidableEq

/-- The whole SQLite database plus the autoincrement counters
(`last_insert_rowid` sources) and the wall clock. -/
structure Store where
  products : List ProductRow
  staff : List StaffRow
  orders : List OrderRow
  items : List ItemRow
  sessions : List SessionRow
  nextOrderId : Int
  nextItemId : Int
  nextSessionId : Int
  today : String
  nowTs : String
  deriving Repr, DecidableEq

/-- Structured rendering of the error strings the commands return.  Each
constructor corresponds to one `return Err(...)` site in the source
(the spec's §6 allows the opaque strings to be read as structured
errors). -/
inductive Err where
  /-- "Day is not started. Please start the day first." -/
  | dayNotStarted : Err
  /-- "Product not found: {e}" -/
  | productNotFound : Err
  /-- "Insufficient stock for {name}: requested {req}, available {avail}" -/
  | insufficientStock (name : String) (requested available : Int) : Err
  /-- "Order not found" -/
  | orderNotFound : Err
  /-- "Cannot add items to a paid order" -/
  | cannotAddToPaid : Err
  /-- "Order not found or already paid" -/
  | notFoundOrAlreadyPaid : Err
  /-- "Order item not found" -/
  | orderItemNotFound : Err
  /-- "Cannot modify items on a paid order" -/
  | cannotModifyPaid : Err
  /-- "Insufficient stock" (increase_item_quantity) -/
  | insufficientStockOne : Err
  /-- "A day session is already active. Close it first." -/
  | sessionAlreadyActive : Err
  /-- "No active day session to close." -/
  | noActiveSession : Err
  /-- "No orders found for this session. Cannot close an empty day." -/
  | emptySession : Err
  /-- "Cannot close day: {n} tables are still open. Close all tables first." -/
  | openOrdersRemain (n : Nat) : Err
  /-- "A closed session already exists for {date}" -/
  | closedSessionExists (date : String) : Err
  /-- "No orders found for {date}" -/
  | noOrdersForDate (date : String) : Err
  deriving Repr, DecidableEq

/-- Request line (`models.rs` `CreateOrderItem`). -/
structure CreateOrderItem where
  productId : Int
  quantity : Int
  deriving Repr, DecidableEq

/-- Request payload (`models.rs` `CreateOrder`). -/
structure CreateOrderReq where
  staffId : Int
  tableNumber : Int
  customerName : Option String
  notes : Option String
  items : List CreateOrderItem
  deriving Repr, DecidableEq

/-- `models.rs` `Order` as returned to the caller. -/
structure OrderView where
  id : Int
  staffId : Int
  staffName : Option String
  tableNumber : Int
  total : Rat
  customerName : Option String
  notes : Option String
  status : String
  createdAt : String
  deriving Repr, DecidableEq

/-- `models.rs` `OrderItem` as returned to the caller. -/
structure ItemView where
  id : Int
  orderId : Int
  productId : Int
  productName : Option String
  quantity : Int
  priceAtSale : Rat
  deriving Repr, DecidableEq

/-- `models.rs` `OrderWithItems`. -/
structure OrderWithItems where
  order : OrderView
  items : List ItemView
  deriving Repr, DecidableEq

/-- `models.rs` `DaySession` as returned to the caller. -/
structure DaySessionView where
  id : Int
  date : Option String
  startedBy : Int
  startedByName : Option String
  startedAt : String
  closedAt : Option String
  isActive : Bool
  totalRevenue : Option Rat
  totalOrders : Option Int
  deriving Repr, DecidableEq

/-- `Bool`-valued success test on a command result. -/
def isOkB : Except Err α → Bool
  | .ok _ => true
  | .error _ => false

/-- `UPDATE products SET quantity = quantity + delta WHERE id = pid`. -/
def updateProductQty (ps : List ProductRow) (pid : Int) (delta : Int) : List ProductRow :=
  ps.map fun p => if p.id = pid then { p with quantity := p.quantity + delta } else p

/-- One entry of the `item_details` vector built by the validation loop of
`create_order` / `add_items_to_order`: `(product_id, quantity, price, name)`. -/
structure ItemDetail where
  productId : Int
  qty : Int
  price : Rat
  name : String
  deriving Repr, DecidableEq

/-- The validation loop of `create_order` (orders.rs lines 19-41) and
`add_items_to_order` (lines 133-155): for each requested line, look the
product up (`Product not found` if absent), require
`product.quantity ≥ line.quantity` (`Insufficient stock` otherwise),
and accumulate the subtotal and the `item_details` vector.  No write
happens during this loop. -/
def validateItems (ps : List ProductRow) : List CreateOrderItem → Except Err (Rat × List ItemDetail)
  | [] => .ok (0, [])
  | line :: rest =>
    match ps.find? (fun p => p.id = line.productId) with
    | none => .error .productNotFound
    | some p =>
      if p.quantity < line.quantity then
        .error (.insufficientStock p.name line.quantity p.quantity)
      else
        match validateItems ps rest with
        | .error e => .error e
        | .ok (t, ds) =>
          .ok (p.price * (line.quantity : Rat) + t,
               ⟨line.productId, line.quantity, p.price, p.name⟩ :: ds)

/-- The write loop of `create_order` (orders.rs lines 52-78) and
`add_items_to_order` (lines 157-171): insert one `order_items` row per
detail and deduct the stock (`UPDATE products SET quantity = quantity - qty`).
Returns the `OrderItem` views `create_order` collects along the way. -/
def insertItems (oid : Int) : List ItemDetail → Store → List ItemView × Store
  | [], st => ([], st)
  | d :: ds, st =>
    let iid := st.nextItemId
    let row : ItemRow :=
      { id := iid, orderId := oid, productId := d.productId,
        quantity := d.qty, priceAtSale := d.price }
    let st1 : Store :=
      { st with items := st.items ++ [row],
                products := updateProductQty st.products d.productId (-d.qty),
                nextItemId := iid + 1 }
    let (vs, st2) := insertItems oid ds st1
    (⟨iid, oid, d.productId, some d.name, d.qty, d.price⟩ :: vs, st2)

/-- View of a stored order row together with the joined staff name. -/
def viewOfRow (o : OrderRow) (staffName : Option String) : OrderView :=
  { id := o.id, staffId := o.staffId, staffName := staffName,
    tableNumber := o.tableNumber, total := o.total,
    customerName := o.customerName, notes := o.notes,
    status := o.status, createdAt := o.createdAt }

/-- `get_order` (orders.rs lines 504-557): read one order row joined with
the staff name, and its items joined with the product names.  Pure read. -/
def get_order (st : Store) (id : Int) : Except Err OrderWithItems :=
  match st.orders.find? (fun o => o.id = id) with
  | none => .error .orderNotFound
  | some o =>
    let staffName := (st.staff.find? (fun s => s.id = o.staffId)).map (·.name)
    let items := (st.items.filter (fun it => it.orderId = id)).map fun it =>
      ({ id := it.id, orderId := it.orderId, productId := it.productId,
         productName := (st.products.find? (fun p => p.id = it.productId)).map (·.name),
         quantity := it.quantity, priceAtSale := it.priceAtSale } : ItemView)
    .ok { order := viewOfRow o staffName, items := items }

/-- `create_order` (orders.rs lines 5-111): require an active day session,
validate every requested line before any write, then insert the order
row (status `open`, linked to the active session), insert the item rows
and deduct stock line by line. -/
def create_order (st : Store) (req : CreateOrderReq) : Except Err OrderWithItems × Store :=
  match st.sessions.find? (fun s => s.isActive) with
  | none => (.error .dayNotStarted, st)
  | some sess =>
    match validateItems st.products req.items with
    | .error e => (.error e, st)
    | .ok (total, details) =>
      let oid := st.nextOrderId
      let row : OrderRow :=
        { id := oid, staffId := req.staffId, tableNumber := req.tableNumber,
          total := total, customerName := req.customerName, notes := req.notes,
          status := "open", sessionId := some sess.id,
          createdDate := st.today, createdAt := st.nowTs }
      let st1 : Store := { st with orders := st.orders ++ [row], nextOrderId := oid + 1 }
      let ins := insertItems oid details st1
      let staffName := (ins.2.staff.find? (fun s => s.id = req.staffId)).map (·.name)
      (.ok { order := viewOfRow row staffName, items := ins.1 }, ins.2)

/-- `add_items_to_order` (orders.rs lines 113-185): the order must exist
and be open; validate every requested line before any write, then
insert the item rows, deduct stock, and add the new subtotal to the
order total. -/
def add_items_to_order (st : Store) (orderId : Int) (lines : List CreateOrderItem) :
    Except Err OrderWithItems × Store :=
  match st.orders.find? (fun o => o.id = orderId) with
  | none => (.error .orderNotFound, st)
  | some o =>
    if o.status ≠ "open" then (.error .cannotAddToPaid, st)
    else
      match validateItems st.products lines with
      | .error e => (.error e, st)
      | .ok (additional, details) =>
        let st1 := (insertItems orderId details st).2
        let st2 : Store :=
          { st1 with orders := st1.orders.map fun r =>
              if r.id = orderId then { r with total := r.total + additional } else r }
        (get_order st2 orderId, st2)

/-- `mark_order_paid` (orders.rs lines 187-206): the single conditional
update `UPDATE orders SET status = 'paid' WHERE id = ? AND status = 'open'`;
zero affected rows is the error case. -/
def mark_order_paid (st : Store) (orderId : Int) : Except Err OrderWithItems × Store :=
  let changes := (st.orders.filter (fun r => r.id = orderId ∧ r.status = "open")).length
  let st1 : Store :=
    { st with orders := st.orders.map fun r =>
        if r.id = orderId ∧ r.status = "open" then { r with status := "paid" } else r }
  if changes = 0 then (.error .notFoundOrAlreadyPaid, st1)
  else (get_order st1 orderId, st1)

/-- `decrease_item_quantity` (orders.rs lines 208-284): read the item and
its order, require the order open; delete the item when its quantity is
`≤ 1`, otherwise decrement it; restore 1 unit of stock; subtract the
item's `price_at_sale` from the order total; if the order is left with
zero items, delete the order and return `none`. -/
def decrease_item_quantity (st : Store) (itemId : Int) :
    Except Err (Option OrderWithItems) × Store :=
  match st.items.find? (fun it => it.id = itemId) with
  | none => (.error .orderItemNotFound, st)
  | some it =>
    match st.orders.find? (fun o => o.id = it.orderId) with
    | none => (.error .orderNotFound, st)
    | some o =>
      if o.status ≠ "open" then (.error .cannotModifyPaid, st)
      else
        let items1 :=
          if it.quantity ≤ 1 then st.items.filter (fun r => ¬ r.id = itemId)
          else st.items.map (fun r =>
            if r.id = itemId then { r with quantity := r.quantity - 1 } else r)
        let st1 : Store :=
          { st with items := items1,
                    products := updateProductQty st.products it.productId 1,
                    orders := st.orders.map fun r =>
                      if r.id = it.orderId then { r with total := r.total - it.priceAtSale }
                      else r }
        let remaining := (st1.items.filter (fun r => r.orderId = it.orderId)).length
        if remaining = 0 then
          let st2 : Store :=
            { st1 with orders := st1.orders.filter (fun r => ¬ r.id = it.orderId) }
          (.ok none, st2)
        else ((get_order st1 it.orderId).map some, st1)

/-- `increase_item_quantity` (orders.rs lines 286-352): read the item and
its order, require the order open and the product's stock `≥ 1`;
increment the item quantity, deduct 1 unit of stock, add the item's
`price_at_sale` to the order total. -/
def increase_item_quantity (st : Store) (itemId : Int) :
    Except Err OrderWithItems × Store :=
  match st.items.find? (fun it => it.id = itemId) with
  | none => (.error .orderItemNotFound, st)
  | some it =>
    match st.orders.find? (fun o => o.id = it.orderId) with
    | none => (.error .orderNotFound, st)
    | some o =>
      if o.status ≠ "open" then (.error .cannotModifyPaid, st)
      else
        match st.products.find? (fun p => p.id = it.productId) with
        | none => (.error .productNotFound, st)
        | some p =>
          if p.quantity < 1 then (.error .insufficientStockOne, st)
          else
            let st1 : Store :=
              { st with items := st.items.map (fun r =>
                          if r.id = itemId then { r with quantity := r.quantity + 1 } else r),
                        products := updateProductQty st.products it.productId (-1),
                        orders := st.orders.map fun r =>
                          if r.id = it.orderId then { r with total := r.total + it.priceAtSale }
                          else r }
            (get_order st1 it.orderId, st1)

/-- `update_order_notes` (orders.rs lines 354-370): unconditional
`UPDATE orders SET customer_name = ?, notes = ? WHERE id = ?` (no status
check), then return the order view. -/
def update_order_notes (st : Store) (orderId : Int)
    (customerName notes : Option String) : Except Err OrderWithItems × Store :=
  let st1 : Store :=
    { st with orders := st.orders.map fun r =>
        if r.id = orderId then { r with customerName := customerName, notes := notes } else r }
  (get_order st1 orderId, st1)

/-- `start_day` (reports.rs lines 601-655): fail if any session is active,
otherwise insert a new active session row dated today. -/
def start_day (st : Store) (staffId : Int) : Except Err DaySessionView × Store :=
  if (st.sessions.find? (fun s => s.isActive)).isSome then
    (.error .sessionAlreadyActive, st)
  else
    let sid := st.nextSessionId
    let row : SessionRow :=
      { id := sid, date := some st.today, startedBy := staffId,
        startedAt := st.nowTs, isActive := true, closedAt := none,
        totalRevenue := none, totalOrders := none }
    let st1 : Store := { st with sessions := st.sessions ++ [row], nextSessionId := sid + 1 }
    let staffName := (st.staff.find? (fun s => s.id = staffId)).map (·.name)
    (.ok { id := sid, date := some st.today, startedBy := staffId,
           startedByName := staffName, startedAt := st.nowTs, closedAt := none,
           isActive := true, totalRevenue := none, totalOrders := none }, st1)

/-- The orders linked to session `sid` (`WHERE session_id = ?`). -/
def linkedOrders (st : Store) (sid : Int) : List OrderRow :=
  st.orders.filter (fun o => o.sessionId = some sid)

/-- `close_day` (reports.rs lines 156-338).  `backupRes` is the outcome of
the auto-backup closure's file I/O (reports.rs lines 217-308): the
closure's database reads are pure in this model, so only the
environment-dependent write phase is an oracle.  The source matches on
the backup result only to print a log line (lines 310-313). -/
def close_day (st : Store) (backupRes : Except String String) :
    Except Err DaySessionView × Store :=
  match st.sessions.find? (fun s => s.isActive) with
  | none => (.error .noActiveSession, st)
  | some sess =>
    let linked := linkedOrders st sess.id
    let totalRevenue := (linked.map (·.total)).sum
    let totalOrders := linked.length
    if totalOrders = 0 then (.error .emptySession, st)
    else
      let openOrders := (linked.filter (fun o => o.status = "open")).length
      if 0 < openOrders then (.error (.openOrdersRemain openOrders), st)
      else
        let st1 : Store :=
          { st with sessions := st.sessions.map fun s =>
              if s.id = sess.id then
                { s with isActive := false, closedAt := some st.nowTs,
                         totalRevenue := some totalRevenue,
                         totalOrders := some (totalOrders : Int) }
              else s }
        let startedByName := (st.staff.find? (fun s => s.id = sess.startedBy)).map (·.name)
        let out : Except Err DaySessionView × Store :=
          (.ok { id := sess.id, date := sess.date, startedBy := sess.startedBy,
                 startedByName := startedByName, startedAt := sess.startedAt,
                 closedAt := some st.nowTs, isActive := false,
                 totalRevenue := some totalRevenue,
                 totalOrders := some (totalOrders : Int) }, st1)
        match backupRes with
        | .ok _ => out
        | .error _ => out

/-- `create_day_closing_for_date` (reports.rs lines 78-154): fail if a
closed session exists for `date`; aggregate over ALL orders whose
calendar date matches (the query has no `session_id IS NULL` filter);
fail if there are none; insert a session row pre-marked closed with the
frozen totals and the synthetic start timestamp `date 00:00:00`; then
backfill `session_id` on matching-date orders that have none. -/
def create_day_closing_for_date (st : Store) (date : String) :
    Except Err DaySessionView × Store :=
  if (st.sessions.find? (fun s => s.date = some date ∧ s.isActive = false)).isSome then
    (.error (.closedSessionExists date), st)
  else
    let matching := st.orders.filter (fun o => o.createdDate = date)
    let totalRevenue := (matching.map (·.total)).sum
    let totalOrders := matching.length
    if totalOrders = 0 then (.error (.noOrdersForDate date), st)
    else
      let staffId := ((st.staff.head?).map (·.id)).getD 1
      let sid := st.nextSessionId
      let row : SessionRow :=
        { id := sid, date := some date, startedBy := staffId,
          startedAt := date ++ " 00:00:00", isActive := false,
          closedAt := some st.nowTs, totalRevenue := some totalRevenue,
          totalOrders := some (totalOrders : Int) }
      let st1 : Store :=
        { st with sessions := st.sessions ++ [row], nextSessionId := sid + 1,
                  orders := st.orders.map fun o =>
                    if o.createdDate = date ∧ o.sessionId = none then
                      { o with sessionId := some sid }
                    else o }
      let staffName := (st.staff.find? (fun s => s.id = staffId)).map (·.name)
      (.ok { id := sid, date := some date, startedBy := staffId,
             startedByName := staffName, startedAt := date ++ " 00:00:00",
             closedAt := some st.nowTs, isActive := false,
             totalRevenue := some totalRevenue,
             totalOrders := some (totalOrders : Int) }, st1)

/-! ## Invariants and the operation step relation -/

/-- `Σ quantity × priceAtSale` over the items of order `oid` — the sum the
spec's order-total invariant refers to. -/
def itemsTotal (items : List ItemRow) (oid : Int) : Rat :=
  ((items.filter (fun it => it.orderId = oid)).map
    (fun it => it.priceAtSale * (it.quantity : Rat))).sum

/-- Every open order's stored total equals the sum over its current items. -/
def totalsOk (st : Store) : Prop :=
  ∀ o ∈ st.orders, o.status = "open" → o.total = itemsTotal st.items o.id

/-- Number of sessions with `is_active = 1`. -/
def activeCount (st : Store) : Nat :=
  (st.sessions.filter (fun s => s.isActive)).length

/-- Quantity on hand of product `pid` (first row with that id). -/
def stockOf (st : Store) (pid : Int) : Option Int :=
  (st.products.find? (fun p => p.id = pid)).map (·.quantity)

/-- Database well-formedness: row ids are below the autoincrement
counters, item ids are distinct, every item references an already
allocated order id, item quantities are at least 1 (the spec's
`OrderItem.quantity ≥ 1` data-model invariant), and the order-total
invariant holds. -/
def WF (st : Store) : Prop :=
  (∀ o ∈ st.orders, o.id < st.nextOrderId) ∧
  (∀ it ∈ st.items, it.orderId < st.nextOrderId) ∧
  (∀ it ∈ st.items, it.id < st.nextItemId) ∧
  (st.items.map (·.id)).Nodup ∧
  (∀ it ∈ st.items, 1 ≤ it.quantity) ∧
  totalsOk st

/-- One core operation executed against the store, leaving whatever store
the command leaves behind (also on failure). -/
inductive Step : Store → Store → Prop
  | createOrder (st : Store) (req : CreateOrderReq) : Step st (create_order st req).2
  | addItems (st : Store) (oid : Int) (lines : List CreateOrderItem) :
      Step st (add_items_to_order st oid lines).2
  | markPaid (st : Store) (oid : Int) : Step st (mark_order_paid st oid).2
  | decrease (st : Store) (iid : Int) : Step st (decrease_item_quantity st iid).2
  | increase (st : Store) (iid : Int) : Step st (increase_item_quantity st iid).2
  | notes (st : Store) (oid : Int) (c n : Option String) :
      Step st (update_order_notes st oid c n).2
  | startDay (st : Store) (staffId : Int) : Step st (start_day st staffId).2
  | closeDay (st : Store) (b : Except String String) : Step st (close_day st b).2
  | recovery (st : Store) (date : String) :
      Step st (create_day_closing_for_date st date).2

/-- Any sequence of core operations. -/
def Reach : Store → Store → Prop := Relation.ReflTransGen Step

/-- Like `Step`, but the multi-line requests are restricted to well-formed
lines of quantity at least 1 (the data model's `OrderItem.quantity ≥ 1`;
the code accepts quantity ≤ 0 lines without validating them). -/
inductive StepPos : Store → Store → Prop
  | createOrder (st : Store) (req : CreateOrderReq)
      (hq : ∀ l ∈ req.items, 1 ≤ l.quantity) : StepPos st (create_order st req).2
  | addItems (st : Store) (oid : Int) (lines : List CreateOrderItem)
      (hq : ∀ l ∈ lines, 1 ≤ l.quantity) : StepPos st (add_items_to_order st oid lines).2
  | markPaid (st : Store) (oid : Int) : StepPos st (mark_order_paid st oid).2
  | decrease (st : Store) (iid : Int) : StepPos st (decrease_item_quantity st iid).2
  | increase (st : Store) (iid : Int) : StepPos st (increase_item_quantity st iid).2
  | notes (st : Store) (oid : Int) (c n : Option String) :
      StepPos st (update_order_notes st oid c n).2
  | startDay (st : Store) (staffId : Int) : StepPos st (start_day st staffId).2
  | closeDay (st : Store) (b : Except String String) : StepPos st (close_day st b).2
  | recovery (st : Store) (date : String) :
      StepPos st (create_day_closing_for_date st date).2

/-- Any sequence of core operations with well-formed request quantities. -/
def ReachPos : Store → Store → Prop := Relation.ReflTransGen StepPos

/-- The item rows `insertItems oid ds` inserts when the next item id is `n`. -/
def detailRows (oid : Int) : List ItemDetail → Int → List ItemRow
  | [], _ => []
  | d :: ds, n => ⟨n, oid, d.productId, d.qty, d.price⟩ :: detailRows oid ds (n + 1)

/-- The subtotal of a list of validated line details. -/
def detailsTotal (ds : List ItemDetail) : Rat :=
  (ds.map (fun d => d.price * (d.qty : Rat))).sum

/-- A request line fails validation when its product is missing or its
requested quantity exceeds the product's stock. -/
def lineFails (ps : List ProductRow) (l : CreateOrderItem) : Prop :=
  ps.find? (fun p => p.id = l.productId) = none ∨
  ∃ p, ps.find? (fun p' => p'.id = l.productId) = some p ∧ p.quantity < l.quantity

/-! ### Concrete stores and requests used as witnesses and counterexamples -/

/-- One product (id 1, price 5, stock 3), one staff member, one active
session, no orders yet. -/
def baseStore : Store :=
  { products := [{ id := 1, name := "Beer", price := 5, quantity := 3 }],
    staff := [{ id := 1, name := "Ana" }],
    orders := [], items := [],
    sessions := [{ id := 1, date := some "2024-01-01", startedBy := 1, startedAt := "ts0",
                   isActive := true, closedAt := none, totalRevenue := none,
                   totalOrders := none }],
    nextOrderId := 1, nextItemId := 1, nextSessionId := 2,
    today := "2024-01-01", nowTs := "ts1" }

/-- Two lines for the same product, quantity 2 each, against stock 3. -/
def c1Req : CreateOrderReq :=
  { staffId := 1, tableNumber := 5, customerName := none, notes := none,
    items := [{ productId := 1, quantity := 2 }, { productId := 1, quantity := 2 }] }

/-- A request holding a zero-quantity line next to an ordinary line. -/
def c2BadReq : CreateOrderReq :=
  { staffId := 1, tableNumber := 5, customerName := none, notes := none,
    items := [{ productId := 1, quantity := 0 }, { productId := 1, quantity := 1 }] }

def c2MidStore : Store := (create_order baseStore c2BadReq).2

def c2EndStore : Store := (decrease_item_quantity c2MidStore 1).2

/-- A single well-formed line of quantity 2. -/
def c2PosReq : CreateOrderReq :=
  { staffId := 1, tableNumber := 5, customerName := none, notes := none,
    items := [{ productId := 1, quantity := 2 }] }

def c2PosStore : Store := (create_order baseStore c2PosReq).2

/-- The order row `create_order baseStore c2PosReq` inserts (its total is
kept in the shape the validation fold builds it in). -/
def c2PosOrder : OrderRow :=
  { id := 1, staffId := 1, tableNumber := 5,
    total := (5 : Rat) * ((2 : Int) : Rat) + 0, customerName := none,
    notes := none, status := "open", sessionId := some 1,
    createdDate := "2024-01-01", createdAt := "ts1" }

def noSessionStore : Store := { baseStore with sessions := [] }

/-- A settled order linked to session 1. -/
def c4Order : OrderRow :=
  { id := 1, staffId := 1, tableNumber := 5, total := 25, customerName := none,
    notes := none, status := "paid", sessionId := some 1,
    createdDate := "2024-01-01", createdAt := "ts1" }

def c4Store : Store := { baseStore with orders := [c4Order], nextOrderId := 2 }

/-- The active session row of `baseStore` and `c4Store`. -/
def c4Sess : SessionRow :=
  { id := 1, date := some "2024-01-01", startedBy := 1, startedAt := "ts0",
    isActive := true, closedAt := none, totalRevenue := none, totalOrders := none }

/-- One line requesting 4 units against stock 3. -/
def c5Req : CreateOrderReq :=
  { staffId := 1, tableNumber := 5, customerName := none, notes := none,
    items := [{ productId := 1, quantity := 4 }] }

/-- An open order at table 5 with a running total of 15. -/
def c7Order : OrderRow :=
  { id := 1, staffId := 1, tableNumber := 5, total := 15, customerName := none,
    notes := none, status := "open", sessionId := some 1,
    createdDate := "2024-01-01", createdAt := "ts1" }

def c6Store : Store := { baseStore with orders := [c7Order], nextOrderId := 2 }

def c7Item1 : ItemRow := { id := 1, orderId := 1, productId := 1, quantity := 2, priceAtSale := 5 }

def c7Item2 : ItemRow := { id := 2, orderId := 1, productId := 1, quantity := 1, priceAtSale := 5 }

def c7Store : Store :=
  { baseStore with orders := [c7Order], items := [c7Item1, c7Item2],
                   nextOrderId := 2, nextItemId := 3 }

/-- An order dated 2024-01-02 already linked to a session. -/
def c8Order : OrderRow :=
  { id := 1, staffId := 1, tableNumber := 5, total := 10, customerName := none,
    notes := none, status := "paid", sessionId := some 1,
    createdDate := "2024-01-02", createdAt := "t" }

/-- A closed session dated 2024-01-01 plus a session-linked order dated
2024-01-02: no order of 2024-01-02 has a null session reference. -/
def c8Store : Store :=
  { products := [], staff := [{ id := 1, name := "Ana" }],
    orders := [c8Order], items := [],
    sessions := [{ id := 1, date := some "2024-01-01", startedBy := 1, startedAt := "s",
                   isActive := false, closedAt := some "c", totalRevenue := some 10,
                   totalOrders := some 1 }],
    nextOrderId := 2, nextItemId := 1, nextSessionId := 2,
    today := "2024-01-03", nowTs := "now" }

/-- A legacy order with a null session reference. -/
def c8wOrder : OrderRow :=
  { id := 1, staffId := 1, tableNumber := 5, total := 25, customerName := none,
    notes := none, status := "paid", sessionId := none,
    createdDate := "2024-01-01", createdAt := "ts1" }

def c8wStore : Store :=
  { baseStore with sessions := [], orders := [c8wOrder], nextOrderId := 2 }

/-! ## Basic lemmas about `itemsTotal` -/

theorem itemsTotal_nil (oid : Int) : itemsTotal [] oid = 0 := rfl

theorem itemsTotal_cons (r : ItemRow) (l : List ItemRow) (oid : Int) :
    itemsTotal (r :: l) oid =
      (if r.orderId = oid then r.priceAtSale * (r.quantity : Rat) else 0) + itemsTotal l oid := by
  simp only [itemsTotal, List.filter_cons]
  split
  · next hb => rw [if_pos (by simpa using hb)]; simp
  · next hb => rw [if_neg (by simpa using hb)]; simp

theorem itemsTotal_append (l₁ l₂ : List ItemRow) (oid : Int) :
    itemsTotal (l₁ ++ l₂) oid = itemsTotal l₁ oid + itemsTotal l₂ oid := by
  induction l₁ with
  | nil => simp [itemsTotal_nil]
  | cons r l ih => simp [itemsTotal_cons, ih]; ring

theorem itemsTotal_eq_zero {l : List ItemRow} {oid : Int}
    (h : ∀ it ∈ l, ¬ it.orderId = oid) : itemsTotal l oid = 0 := by
  induction l with
  | nil => rfl
  | cons r l ih =>
    rw [itemsTotal_cons, if_neg (h r (List.mem_cons_self r l)), zero_add]
    exact ih fun it hit => h it (List.mem_cons_of_mem r hit)

/-! ## Characterisation of the write loop and the validation loop -/

theorem insertItems_items (oid : Int) (ds : List ItemDetail) (st : Store) :
    ((insertItems oid ds st).2).items = st.items ++ detailRows oid ds st.nextItemId := by
  induction ds generalizing st with
  | nil => simp [insertItems, detailRows]
  | cons d ds ih => simp [insertItems, detailRows, ih]

theorem insertItems_nextItemId (oid : Int) (ds : List ItemDetail) (st : Store) :
    ((insertItems oid ds st).2).nextItemId = st.nextItemId + ds.length := by
  induction ds generalizing st with
  | nil => simp [insertItems]
  | cons d ds ih => simp [insertItems, ih]; ring

theorem insertItems_orders (oid : Int) (ds : List ItemDetail) (st : Store) :
    ((insertItems oid ds st).2).orders = st.orders := by
  induction ds generalizing st with
  | nil => rfl
  | cons d ds ih => simp [insertItems, ih]

theorem insertItems_sessions (oid : Int) (ds : List ItemDetail) (st : Store) :
    ((insertItems oid ds st).2).sessions = st.sessions := by
  induction ds generalizing st with
  | nil => rfl
  | cons d ds ih => simp [insertItems, ih]

theorem insertItems_staff (oid : Int) (ds : List ItemDetail) (st : Store) :
    ((insertItems oid ds st).2).staff = st.staff := by
  induction ds generalizing st with
  | nil => rfl
  | cons d ds ih => simp [insertItems, ih]

theorem insertItems_nextOrderId (oid : Int) (ds : List ItemDetail) (st : Store) :
    ((insertItems oid ds st).2).nextOrderId = st.nextOrderId := by
  induction ds generalizing st with
  | nil => rfl
  | cons d ds ih => simp [insertItems, ih]

theorem detailRows_orderId (oid : Int) (ds : List ItemDetail) (n : Int) :
    ∀ r ∈ detailRows oid ds n, r.orderId = oid := by
  induction ds generalizing n with
  | nil => simp [detailRows]
  | cons d ds ih =>
    intro r hr
    rcases List.mem_cons.mp hr with h | h
    · rw [h]
    · exact ih (n + 1) r h

theorem detailRows_id_bounds (oid : Int) (ds : List ItemDetail) (n : Int) :
    ∀ r ∈ detailRows oid ds n, n ≤ r.id ∧ r.id < n + ds.length := by
  induction ds generalizing n with
  | nil => simp [detailRows]
  | cons d ds ih =>
    intro r hr
    rcases List.mem_cons.mp hr with h | h
    · rw [h]
      refine ⟨le_refl n, ?_⟩
      simp only [List.length_cons]
      omega
    · rcases ih (n + 1) r h with ⟨h1, h2⟩
      constructor
      · omega
      · simp only [List.length_cons]; omega

theorem detailRows_qty (oid : Int) (ds : List ItemDetail) (n : Int)
    (hq : ∀ d ∈ ds, 1 ≤ d.qty) : ∀ r ∈ detailRows oid ds n, 1 ≤ r.quantity := by
  induction ds generalizing n with
  | nil => simp [detailRows]
  | cons d ds ih =>
    intro r hr
    rcases List.mem_cons.mp hr with h | h
    · rw [h]; exact hq d (List.mem_cons_self d ds)
    · exact ih (n + 1) (fun d' hd' => hq d' (List.mem_cons_of_mem d hd')) r h

theorem detailRows_nodup (oid : Int) (ds : List ItemDetail) (n : Int) :
    ((detailRows oid ds n).map (·.id)).Nodup := by
  induction ds generalizing n with
  | nil => simp [detailRows]
  | cons d ds ih =>
    simp only [detailRows, List.map_cons, List.nodup_cons]
    refine ⟨?_, ih (n + 1)⟩
    intro hmem
    rcases List.mem_map.mp hmem with ⟨r, hr, hid⟩
    have := (detailRows_id_bounds oid ds (n + 1) r hr).1
    omega

theorem detailRows_itemsTotal (oid : Int) (ds : List ItemDetail) (n : Int) :
    itemsTotal (detailRows oid ds n) oid = detailsTotal ds := by
  induction ds generalizing n with
  | nil => rfl
  | cons d ds ih =>
    simp only [detailRows, itemsTotal_cons, if_pos rfl, detailsTotal, List.map_cons,
      List.sum_cons]
    rw [ih (n + 1)]
    rfl

theorem detailRows_itemsTotal_ne (oid oid' : Int) (ds : List ItemDetail) (n : Int)
    (h : oid' ≠ oid) : itemsTotal (detailRows oid ds n) oid' = 0 :=
  itemsTotal_eq_zero fun r hr => by rw [detailRows_orderId oid ds n r hr]; exact fun he => h he.symm

theorem validateItems_total (ps : List ProductRow) (lines : List CreateOrderItem)
    (t : Rat) (ds : List ItemDetail) (h : validateItems ps lines = .ok (t, ds)) :
    t = detailsTotal ds := by
  induction lines generalizing t ds with
  | nil =>
    simp only [validateItems] at h
    cases h
    rfl
  | cons line rest ih =>
    simp only [validateItems] at h
    cases hf : ps.find? (fun p => p.id = line.productId) with
    | none => rw [hf] at h; cases h
    | some p =>
      rw [hf] at h
      dsimp only at h
      by_cases hlt : p.quantity < line.quantity
      · rw [if_pos hlt] at h; cases h
      · rw [if_neg hlt] at h
        cases hv : validateItems ps rest with
        | error e => rw [hv] at h; cases h
        | ok tds =>
          obtain ⟨t', ds'⟩ := tds
          rw [hv] at h
          cases h
          simp only [detailsTotal, List.map_cons, List.sum_cons]
          rw [ih t' ds' hv]
          rfl

theorem validateItems_qty (ps : List ProductRow) (lines : List CreateOrderItem)
    (t : Rat) (ds : List ItemDetail) (h : validateItems ps lines = .ok (t, ds))
    (hq : ∀ l ∈ lines, 1 ≤ l.quantity) : ∀ d ∈ ds, 1 ≤ d.qty := by
  induction lines generalizing t ds with
  | nil =>
    simp only [validateItems] at h
    cases h
    simp
  | cons line rest ih =>
    simp only [validateItems] at h
    cases hf : ps.find? (fun p => p.id = line.productId) with
    | none => rw [hf] at h; cases h
    | some p =>
      rw [hf] at h
      dsimp only at h
      by_cases hlt : p.quantity < line.quantity
      · rw [if_pos hlt] at h; cases h
      · rw [if_neg hlt] at h
        cases hv : validateItems ps rest with
        | error e => rw [hv] at h; cases h
        | ok tds =>
          obtain ⟨t', ds'⟩ := tds
          rw [hv] at h
          cases h
          intro d hd
          rcases List.mem_cons.mp hd with hd | hd
          · rw [hd]; exact hq line (List.mem_cons_self line rest)
          · exact ih t' ds' hv (fun l hl => hq l (List.mem_cons_of_mem line hl)) d hd

/-! ## Preservation of well-formedness by each operation -/

theorem wf_create_order (st : Store) (req : CreateOrderReq)
    (h : WF st) (hq : ∀ l ∈ req.items, 1 ≤ l.quantity) :
    WF (create_order st req).2 := by
  obtain ⟨hOrd, hItOrd, hItId, hNd, hQty, hTot⟩ := h
  unfold create_order
  cases hs : st.sessions.find? (fun s => s.isActive) with
  | none => exact ⟨hOrd, hItOrd, hItId, hNd, hQty, hTot⟩
  | some sess =>
    cases hv : validateItems st.products req.items with
    | error e => exact ⟨hOrd, hItOrd, hItId, hNd, hQty, hTot⟩
    | ok tds =>
      obtain ⟨t, ds⟩ := tds
      dsimp only
      set oid := st.nextOrderId with hoid
      set row : OrderRow :=
        { id := oid, staffId := req.staffId, tableNumber := req.tableNumber,
          total := t, customerName := req.customerName, notes := req.notes,
          status := "open", sessionId := some sess.id,
          createdDate := st.today, createdAt := st.nowTs } with hrow
      set st1 : Store := { st with orders := st.orders ++ [row], nextOrderId := oid + 1 }
        with hst1
      have hords : ((insertItems oid ds st1).2).orders = st.orders ++ [row] :=
        insertItems_orders oid ds st1
      have hitems : ((insertItems oid ds st1).2).items =
          st.items ++ detailRows oid ds st.nextItemId :=
        insertItems_items oid ds st1
      have hnoid : ((insertItems oid ds st1).2).nextOrderId = oid + 1 :=
        insertItems_nextOrderId oid ds st1
      have hniid : ((insertItems oid ds st1).2).nextItemId = st.nextItemId + ds.length :=
        insertItems_nextItemId oid ds st1
      refine ⟨?_, ?_, ?_, ?_, ?_, ?_⟩
      · rw [hords, hnoid]
        intro o ho
        rcases List.mem_append.mp ho with ho | ho
        · have := hOrd o ho; omega
        · rcases List.mem_singleton.mp ho with rfl
          simp only [hrow]
          omega
      · rw [hitems, hnoid]
        intro it hit
        rcases List.mem_append.mp hit with hit | hit
        · have := hItOrd it hit; omega
        · rw [detailRows_orderId oid ds st.nextItemId it hit]; omega
      · rw [hitems, hniid]
        intro it hit
        rcases List.mem_append.mp hit with hit | hit
        · have := hItId it hit; omega
        · have := (detailRows_id_bounds oid ds st.nextItemId it hit).2; omega
      · rw [hitems, List.map_append]
        refine List.Nodup.append hNd (detailRows_nodup oid ds st.nextItemId) ?_
        intro a ha ha'
        rcases List.mem_map.mp ha with ⟨it, hit, rfl⟩
        rcases List.mem_map.mp ha' with ⟨it', hit', hid⟩
        have h1 := hItId it hit
        have h2 := (detailRows_id_bounds oid ds st.nextItemId it' hit').1
        omega
      · rw [hitems]
        intro it hit
        rcases List.mem_append.mp hit with hit | hit
        · exact hQty it hit
        · exact detailRows_qty oid ds st.nextItemId
            (validateItems_qty st.products req.items t ds hv hq) it hit
      · intro o ho hopen
        rw [hords] at ho
        rw [hitems, itemsTotal_append]
        rcases List.mem_append.mp ho with ho | ho
        · rw [detailRows_itemsTotal_ne oid o.id ds st.nextItemId
            (by have := hOrd o ho; omega), add_zero]
          exact hTot o ho hopen
        · rcases List.mem_singleton.mp ho with rfl
          simp only [hrow]
          rw [detailRows_itemsTotal,
            @itemsTotal_eq_zero st.items oid
              (fun it hit => by have := hItOrd it hit; omega),
            zero_add]
          exact validateItems_total st.products req.items t ds hv

theorem wf_add_items (st : Store) (oid : Int) (lines : List CreateOrderItem)
    (h : WF st) (hq : ∀ l ∈ lines, 1 ≤ l.quantity) :
    WF (add_items_to_order st oid lines).2 := by
  obtain ⟨hOrd, hItOrd, hItId, hNd, hQty, hTot⟩ := h
  unfold add_items_to_order
  cases hf : st.orders.find? (fun o => o.id = oid) with
  | none => exact ⟨hOrd, hItOrd, hItId, hNd, hQty, hTot⟩
  | some o =>
    dsimp only
    split
    · exact ⟨hOrd, hItOrd, hItId, hNd, hQty, hTot⟩
    · cases hv : validateItems st.products lines with
      | error e => exact ⟨hOrd, hItOrd, hItId, hNd, hQty, hTot⟩
      | ok tds =>
        obtain ⟨t, ds⟩ := tds
        dsimp only
        have hoid_lt : oid < st.nextOrderId := by
          have hmem := List.mem_of_find?_eq_some hf
          have hp := List.find?_some hf
          simp only [decide_eq_true_eq] at hp
          rw [← hp]
          exact hOrd o hmem
        have hords : ((insertItems oid ds st).2).orders = st.orders :=
          insertItems_orders oid ds st
        have hitems : ((insertItems oid ds st).2).items =
            st.items ++ detailRows oid ds st.nextItemId :=
          insertItems_items oid ds st
        have hnoid : ((insertItems oid ds st).2).nextOrderId = st.nextOrderId :=
          insertItems_nextOrderId oid ds st
        have hniid : ((insertItems oid ds st).2).nextItemId = st.nextItemId + ds.length :=
          insertItems_nextItemId oid ds st
        refine ⟨?_, ?_, ?_, ?_, ?_, ?_⟩
        · simp only [hords, hnoid]
          intro r hr
          rcases List.mem_map.mp hr with ⟨r₀, hr₀, rfl⟩
          have := hOrd r₀ hr₀
          split <;> simpa using this
        · simp only [hitems, hnoid]
          intro it hit
          rcases List.mem_append.mp hit with hit | hit
          · exact hItOrd it hit
          · rw [detailRows_orderId oid ds st.nextItemId it hit]; exact hoid_lt
        · simp only [hitems, hniid]
          intro it hit
          rcases List.mem_append.mp hit with hit | hit
          · have := hItId it hit; omega
          · have := (detailRows_id_bounds oid ds st.nextItemId it hit).2; omega
        · simp only [hitems, List.map_append]
          refine List.Nodup.append hNd (detailRows_nodup oid ds st.nextItemId) ?_
          intro a ha ha'
          rcases List.mem_map.mp ha with ⟨it, hit, rfl⟩
          rcases List.mem_map.mp ha' with ⟨it', hit', hid⟩
          have h1 := hItId it hit
          have h2 := (detailRows_id_bounds oid ds st.nextItemId it' hit').1
          omega
        · simp only [hitems]
          intro it hit
          rcases List.mem_append.mp hit with hit | hit
          · exact hQty it hit
          · exact detailRows_qty oid ds st.nextItemId
              (validateItems_qty st.products lines t ds hv hq) it hit
        · intro r hr hopen
          simp only [hords] at hr
          simp only [hitems, itemsTotal_append]
          rcases List.mem_map.mp hr with ⟨r₀, hr₀, rfl⟩
          by_cases hid : r₀.id = oid
          · rw [if_pos hid]
            have hop : r₀.status = "open" := by simpa [if_pos hid] using hopen
            simp only [hid, detailRows_itemsTotal]
            rw [← validateItems_total st.products lines t ds hv]
            rw [hTot r₀ hr₀ hop, hid]
          · rw [if_neg hid]
            have hop : r₀.status = "open" := by simpa [if_neg hid] using hopen
            rw [detailRows_itemsTotal_ne oid r₀.id ds st.nextItemId hid, add_zero]
            exact hTot r₀ hr₀ hop

theorem wf_mark_paid (st : Store) (oid : Int) (h : WF st) :
    WF (mark_order_paid st oid).2 := by
  obtain ⟨hOrd, hItOrd, hItId, hNd, hQty, hTot⟩ := h
  unfold mark_order_paid
  have hwf1 : WF { st with orders := st.orders.map fun r =>
      if r.id = oid ∧ r.status = "open" then { r with status := "paid" } else r } := by
    refine ⟨?_, hItOrd, hItId, hNd, hQty, ?_⟩
    · intro r hr
      rcases List.mem_map.mp hr with ⟨r₀, hr₀, rfl⟩
      have := hOrd r₀ hr₀
      split <;> simpa using this
    · intro r hr hopen
      rcases List.mem_map.mp hr with ⟨r₀, hr₀, rfl⟩
      by_cases hc : r₀.id = oid ∧ r₀.status = "open"
      · rw [if_pos hc] at hopen
        simp at hopen
      · rw [if_neg hc] at hopen ⊢
        exact hTot r₀ hr₀ hopen
  dsimp only
  split
  · exact hwf1
  · exact hwf1

theorem wf_update_notes (st : Store) (oid : Int) (c n : Option String) (h : WF st) :
    WF (update_order_notes st oid c n).2 := by
  obtain ⟨hOrd, hItOrd, hItId, hNd, hQty, hTot⟩ := h
  unfold update_order_notes
  refine ⟨?_, hItOrd, hItId, hNd, hQty, ?_⟩
  · intro r hr
    rcases List.mem_map.mp hr with ⟨r₀, hr₀, rfl⟩
    have := hOrd r₀ hr₀
    split <;> simpa using this
  · intro r hr hopen
    rcases List.mem_map.mp hr with ⟨r₀, hr₀, rfl⟩
    by_cases hc : r₀.id = oid
    · rw [if_pos hc] at hopen ⊢
      exact hTot r₀ hr₀ hopen
    · rw [if_neg hc] at hopen ⊢
      exact hTot r₀ hr₀ hopen

theorem wf_start_day (st : Store) (staffId : Int) (h : WF st) :
    WF (start_day st staffId).2 := by
  obtain ⟨hOrd, hItOrd, hItId, hNd, hQty, hTot⟩ := h
  unfold start_day
  split
  · exact ⟨hOrd, hItOrd, hItId, hNd, hQty, hTot⟩
  · exact ⟨hOrd, hItOrd, hItId, hNd, hQty, hTot⟩

theorem wf_close_day (st : Store) (b : Except String String) (h : WF st) :
    WF (close_day st b).2 := by
  obtain ⟨hOrd, hItOrd, hItId, hNd, hQty, hTot⟩ := h
  unfold close_day
  cases st.sessions.find? (fun s => s.isActive) with
  | none => exact ⟨hOrd, hItOrd, hItId, hNd, hQty, hTot⟩
  | some sess =>
    dsimp only
    split
    · exact ⟨hOrd, hItOrd, hItId, hNd, hQty, hTot⟩
    · split
      · exact ⟨hOrd, hItOrd, hItId, hNd, hQty, hTot⟩
      · cases b <;> exact ⟨hOrd, hItOrd, hItId, hNd, hQty, hTot⟩

theorem wf_recovery (st : Store) (date : String) (h : WF st) :
    WF (create_day_closing_for_date st date).2 := by
  obtain ⟨hOrd, hItOrd, hItId, hNd, hQty, hTot⟩ := h
  unfold create_day_closing_for_date
  split
  · exact ⟨hOrd, hItOrd, hItId, hNd, hQty, hTot⟩
  · dsimp only
    split
    · exact ⟨hOrd, hItOrd, hItId, hNd, hQty, hTot⟩
    · refine ⟨?_, hItOrd, hItId, hNd, hQty, ?_⟩
      · intro r hr
        rcases List.mem_map.mp hr with ⟨r₀, hr₀, rfl⟩
        have := hOrd r₀ hr₀
        split <;> simpa using this
      · intro r hr hopen
        rcases List.mem_map.mp hr with ⟨r₀, hr₀, rfl⟩
        by_cases hc : r₀.createdDate = date ∧ r₀.sessionId = none
        · rw [if_pos hc] at hopen ⊢
          exact hTot r₀ hr₀ hopen
        · rw [if_neg hc] at hopen ⊢
          exact hTot r₀ hr₀ hopen

theorem list_map_id_of {α : Type _} (l : List α) (f : α → α) (h : ∀ a ∈ l, f a = a) :
    l.map f = l := by
  conv_rhs => rw [← List.map_id l]
  exact List.map_congr_left h

/-- A `find?` hit on a duplicate-free id column splits the list around the
unique row carrying that id. -/
theorem find?_id_decomp (l : List ItemRow) (iid : Int) (it : ItemRow)
    (hf : l.find? (fun r => r.id = iid) = some it)
    (hnd : (l.map (·.id)).Nodup) :
    ∃ l₁ l₂, l = l₁ ++ it :: l₂ ∧ (∀ r ∈ l₁, ¬ r.id = iid) ∧ (∀ r ∈ l₂, ¬ r.id = iid) ∧
      it.id = iid := by
  induction l with
  | nil => simp at hf
  | cons a l ih =>
    by_cases ha : a.id = iid
    · rw [List.find?_cons_of_pos l (by simpa using ha)] at hf
      cases hf
      simp only [List.map_cons, List.nodup_cons] at hnd
      refine ⟨[], l, rfl, by simp, ?_, ha⟩
      intro r hr hrid
      exact hnd.1 (List.mem_map.mpr ⟨r, hr, by rw [hrid, ha]⟩)
    · rw [List.find?_cons_of_neg l (by simpa using ha)] at hf
      simp only [List.map_cons, List.nodup_cons] at hnd
      obtain ⟨l₁, l₂, hl, h₁, h₂, hit⟩ := ih hf hnd.2
      refine ⟨a :: l₁, l₂, by simp [hl], ?_, h₂, hit⟩
      intro r hr
      rcases List.mem_cons.mp hr with rfl | hr
      · exact ha
      · exact h₁ r hr

theorem wf_orders_filter (st : Store) (p : OrderRow → Bool) (h : WF st) :
    WF { st with orders := st.orders.filter p } := by
  obtain ⟨hOrd, hItOrd, hItId, hNd, hQty, hTot⟩ := h
  refine ⟨?_, hItOrd, hItId, hNd, hQty, ?_⟩
  · intro o ho
    exact hOrd o (List.mem_filter.mp ho).1
  · intro o ho hop
    exact hTot o (List.mem_filter.mp ho).1 hop

theorem wf_decrease (st : Store) (iid : Int) (h : WF st) :
    WF (decrease_item_quantity st iid).2 := by
  obtain ⟨hOrd, hItOrd, hItId, hNd, hQty, hTot⟩ := h
  unfold decrease_item_quantity
  cases hfi : st.items.find? (fun r => r.id = iid) with
  | none => exact ⟨hOrd, hItOrd, hItId, hNd, hQty, hTot⟩
  | some it =>
    dsimp only
    cases hfo : st.orders.find? (fun o => o.id = it.orderId) with
    | none => exact ⟨hOrd, hItOrd, hItId, hNd, hQty, hTot⟩
    | some o =>
      dsimp only
      split
      · exact ⟨hOrd, hItOrd, hItId, hNd, hQty, hTot⟩
      · have hitmem : it ∈ st.items := List.mem_of_find?_eq_some hfi
        have hitid : it.id = iid := by simpa using List.find?_some hfi
        obtain ⟨l₁, l₂, hl, h₁, h₂, _⟩ := find?_id_decomp st.items iid it hfi hNd
        -- the updated item table, in both branches of the quantity test
        have hdel : st.items.filter (fun r => ¬ r.id = iid) = l₁ ++ l₂ := by
          rw [hl, List.filter_append, List.filter_cons, if_neg (by simp [hitid]),
            List.filter_eq_self.mpr (fun a ha => by simpa using h₁ a ha),
            List.filter_eq_self.mpr (fun a ha => by simpa using h₂ a ha)]
        have hmap : st.items.map (fun r =>
              if r.id = iid then { r with quantity := r.quantity - 1 } else r) =
            l₁ ++ ({ it with quantity := it.quantity - 1 } : ItemRow) :: l₂ := by
          rw [hl, List.map_append, List.map_cons, if_pos hitid,
            list_map_id_of l₁ _ (fun a ha => if_neg (h₁ a ha)),
            list_map_id_of l₂ _ (fun a ha => if_neg (h₂ a ha))]
        have hTotOld : ∀ oid', itemsTotal st.items oid' =
            itemsTotal l₁ oid' +
              ((if it.orderId = oid' then it.priceAtSale * (it.quantity : Rat) else 0) +
                itemsTotal l₂ oid') := by
          intro oid'
          rw [hl, itemsTotal_append, itemsTotal_cons]
        have hq1 : 1 ≤ it.quantity := hQty it hitmem
        -- well-formedness of the store after the three updates
        have hwf1 : WF { st with
            items := if it.quantity ≤ 1 then st.items.filter (fun r => ¬ r.id = iid)
              else st.items.map (fun r =>
                if r.id = iid then { r with quantity := r.quantity - 1 } else r),
            products := updateProductQty st.products it.productId 1,
            orders := st.orders.map fun r =>
              if r.id = it.orderId then { r with total := r.total - it.priceAtSale }
              else r } := by
          refine ⟨?_, ?_, ?_, ?_, ?_, ?_⟩
          · intro r hr
            rcases List.mem_map.mp hr with ⟨r₀, hr₀, rfl⟩
            have := hOrd r₀ hr₀
            split <;> simpa using this
          · intro r hr
            dsimp only at hr
            split at hr
            · rw [hdel] at hr
              refine hItOrd r ?_
              rw [hl]
              rcases List.mem_append.mp hr with hr | hr
              · exact List.mem_append.mpr (Or.inl hr)
              · exact List.mem_append.mpr (Or.inr (List.mem_cons_of_mem it hr))
            · rw [hmap] at hr
              rcases List.mem_append.mp hr with hr | hr
              · exact hItOrd r (by rw [hl]; exact List.mem_append.mpr (Or.inl hr))
              · rcases List.mem_cons.mp hr with rfl | hr
                · exact hItOrd it hitmem
                · exact hItOrd r (by
                    rw [hl]
                    exact List.mem_append.mpr (Or.inr (List.mem_cons_of_mem it hr)))
          · intro r hr
            dsimp only at hr
            split at hr
            · rw [hdel] at hr
              refine hItId r ?_
              rw [hl]
              rcases List.mem_append.mp hr with hr | hr
              · exact List.mem_append.mpr (Or.inl hr)
              · exact List.mem_append.mpr (Or.inr (List.mem_cons_of_mem it hr))
            · rw [hmap] at hr
              rcases List.mem_append.mp hr with hr | hr
              · exact hItId r (by rw [hl]; exact List.mem_append.mpr (Or.inl hr))
              · rcases List.mem_cons.mp hr with rfl | hr
                · exact hItId it hitmem
                · exact hItId r (by
                    rw [hl]
                    exact List.mem_append.mpr (Or.inr (List.mem_cons_of_mem it hr)))
          · dsimp only
            split
            · rw [hdel]
              have hsub : (l₁ ++ l₂).Sublist st.items := by
                rw [hl]
                exact List.Sublist.append_left (List.sublist_cons_self it l₂) l₁
              exact List.Nodup.sublist (List.Sublist.map _ hsub) hNd
            · rw [hmap]
              have : (l₁ ++ ({ it with quantity := it.quantity - 1 } : ItemRow) :: l₂).map
                  (·.id) = (l₁ ++ it :: l₂).map (·.id) := by
                simp only [List.map_append, List.map_cons]
              rw [this, ← hl]
              exact hNd
          · intro r hr
            dsimp only at hr
            split at hr <;> rename_i hqle
            · rw [hdel] at hr
              refine hQty r ?_
              rw [hl]
              rcases List.mem_append.mp hr with hr | hr
              · exact List.mem_append.mpr (Or.inl hr)
              · exact List.mem_append.mpr (Or.inr (List.mem_cons_of_mem it hr))
            · rw [hmap] at hr
              rcases List.mem_append.mp hr with hr | hr
              · exact hQty r (by rw [hl]; exact List.mem_append.mpr (Or.inl hr))
              · rcases List.mem_cons.mp hr with rfl | hr
                · have : ¬ it.quantity ≤ 1 := hqle
                  dsimp only
                  omega
                · exact hQty r (by
                    rw [hl]
                    exact List.mem_append.mpr (Or.inr (List.mem_cons_of_mem it hr)))
          · intro r hr hopen
            dsimp only at hr ⊢
            rcases List.mem_map.mp hr with ⟨r₀, hr₀, rfl⟩
            by_cases hc : r₀.id = it.orderId
            · rw [if_pos hc] at hopen ⊢
              have hop : r₀.status = "open" := hopen
              have hold := hTot r₀ hr₀ hop
              split <;> rename_i hqle
              · -- delete branch: the removed item had quantity exactly 1
                have hq : it.quantity = 1 := le_antisymm hqle hq1
                rw [hdel, itemsTotal_append, hold, hTotOld r₀.id, if_pos hc.symm, hq]
                push_cast
                ring
              · rw [hmap, itemsTotal_append, itemsTotal_cons]
                dsimp only
                rw [if_pos hc.symm, hold, hTotOld r₀.id, if_pos hc.symm]
                push_cast
                ring
            · rw [if_neg hc] at hopen ⊢
              have hop : r₀.status = "open" := hopen
              have hold := hTot r₀ hr₀ hop
              split <;> rename_i hqle
              · rw [hdel, itemsTotal_append, hold, hTotOld r₀.id,
                  if_neg (fun he => hc he.symm)]
                ring
              · rw [hmap, itemsTotal_append, itemsTotal_cons]
                dsimp only
                rw [if_neg (fun he => hc he.symm), hold, hTotOld r₀.id,
                  if_neg (fun he => hc he.symm)]
        have hfin := hwf1
        split <;> rename_i hqle2
        · rw [if_pos hqle2] at hfin
          split
          · exact wf_orders_filter _ _ hfin
          · exact hfin
        · rw [if_neg hqle2] at hfin
          split
          · exact wf_orders_filter _ _ hfin
          · exact hfin

theorem wf_increase (st : Store) (iid : Int) (h : WF st) :
    WF (increase_item_quantity st iid).2 := by
  obtain ⟨hOrd, hItOrd, hItId, hNd, hQty, hTot⟩ := h
  unfold increase_item_quantity
  cases hfi : st.items.find? (fun r => r.id = iid) with
  | none => exact ⟨hOrd, hItOrd, hItId, hNd, hQty, hTot⟩
  | some it =>
    dsimp only
    cases hfo : st.orders.find? (fun o => o.id = it.orderId) with
    | none => exact ⟨hOrd, hItOrd, hItId, hNd, hQty, hTot⟩
    | some o =>
      dsimp only
      split
      · exact ⟨hOrd, hItOrd, hItId, hNd, hQty, hTot⟩
      · cases hfp : st.products.find? (fun p => p.id = it.productId) with
        | none => exact ⟨hOrd, hItOrd, hItId, hNd, hQty, hTot⟩
        | some p =>
          dsimp only
          split
          · exact ⟨hOrd, hItOrd, hItId, hNd, hQty, hTot⟩
          · have hitmem : it ∈ st.items := List.mem_of_find?_eq_some hfi
            have hitid : it.id = iid := by simpa using List.find?_some hfi
            obtain ⟨l₁, l₂, hl, h₁, h₂, _⟩ := find?_id_decomp st.items iid it hfi hNd
            have hmap : st.items.map (fun r =>
                  if r.id = iid then { r with quantity := r.quantity + 1 } else r) =
                l₁ ++ ({ it with quantity := it.quantity + 1 } : ItemRow) :: l₂ := by
              rw [hl, List.map_append, List.map_cons, if_pos hitid,
                list_map_id_of l₁ _ (fun a ha => if_neg (h₁ a ha)),
                list_map_id_of l₂ _ (fun a ha => if_neg (h₂ a ha))]
            have hTotOld : ∀ oid', itemsTotal st.items oid' =
                itemsTotal l₁ oid' +
                  ((if it.orderId = oid' then it.priceAtSale * (it.quantity : Rat) else 0) +
                    itemsTotal l₂ oid') := by
              intro oid'
              rw [hl, itemsTotal_append, itemsTotal_cons]
            refine ⟨?_, ?_, ?_, ?_, ?_, ?_⟩
            · intro r hr
              rcases List.mem_map.mp hr with ⟨r₀, hr₀, rfl⟩
              have := hOrd r₀ hr₀
              split <;> simpa using this
            · intro r hr
              dsimp only at hr
              rw [hmap] at hr
              rcases List.mem_append.mp hr with hr | hr
              · exact hItOrd r (by rw [hl]; exact List.mem_append.mpr (Or.inl hr))
              · rcases List.mem_cons.mp hr with rfl | hr
                · exact hItOrd it hitmem
                · exact hItOrd r (by
                    rw [hl]
                    exact List.mem_append.mpr (Or.inr (List.mem_cons_of_mem it hr)))
            · intro r hr
              dsimp only at hr
              rw [hmap] at hr
              rcases List.mem_append.mp hr with hr | hr
              · exact hItId r (by rw [hl]; exact List.mem_append.mpr (Or.inl hr))
              · rcases List.mem_cons.mp hr with rfl | hr
                · exact hItId it hitmem
                · exact hItId r (by
                    rw [hl]
                    exact List.mem_append.mpr (Or.inr (List.mem_cons_of_mem it hr)))
            · dsimp only
              rw [hmap]
              have : (l₁ ++ ({ it with quantity := it.quantity + 1 } : ItemRow) :: l₂).map
                  (·.id) = (l₁ ++ it :: l₂).map (·.id) := by
                simp only [List.map_append, List.map_cons]
              rw [this, ← hl]
              exact hNd
            · intro r hr
              dsimp only at hr
              rw [hmap] at hr
              rcases List.mem_append.mp hr with hr | hr
              · exact hQty r (by rw [hl]; exact List.mem_append.mpr (Or.inl hr))
              · rcases List.mem_cons.mp hr with rfl | hr
                · have := hQty it hitmem
                  dsimp only
                  omega
                · exact hQty r (by
                    rw [hl]
                    exact List.mem_append.mpr (Or.inr (List.mem_cons_of_mem it hr)))
            · intro r hr hopen
              dsimp only at hr ⊢
              rcases List.mem_map.mp hr with ⟨r₀, hr₀, rfl⟩
              by_cases hc : r₀.id = it.orderId
              · rw [if_pos hc] at hopen ⊢
                have hop : r₀.status = "open" := hopen
                have hold := hTot r₀ hr₀ hop
                rw [hmap, itemsTotal_append, itemsTotal_cons]
                dsimp only
                rw [if_pos hc.symm, hold, hTotOld r₀.id, if_pos hc.symm]
                push_cast
                ring
              · rw [if_neg hc] at hopen ⊢
                have hop : r₀.status = "open" := hopen
                have hold := hTot r₀ hr₀ hop
                rw [hmap, itemsTotal_append, itemsTotal_cons]
                dsimp only
                rw [if_neg (fun he => hc he.symm), hold, hTotOld r₀.id,
                  if_neg (fun he => hc he.symm)]

theorem wf_stepPos {st st' : Store} (hs : StepPos st st') (h : WF st) : WF st' := by
  cases hs with
  | createOrder req hq => exact wf_create_order st req h hq
  | addItems oid lines hq => exact wf_add_items st oid lines h hq
  | markPaid oid => exact wf_mark_paid st oid h
  | decrease iid => exact wf_decrease st iid h
  | increase iid => exact wf_increase st iid h
  | notes oid c n => exact wf_update_notes st oid c n h
  | startDay staffId => exact wf_start_day st staffId h
  | closeDay b => exact wf_close_day st b h
  | recovery date => exact wf_recovery st date h

theorem wf_reachPos {st st' : Store} (h : WF st) (hr : ReachPos st st') : WF st' := by
  induction hr with
  | refl => exact h
  | tail _ hbc ih => exact wf_stepPos hbc ih

/-! ## Sessions under each operation -/

theorem sessions_create_order (st : Store) (req : CreateOrderReq) :
    (create_order st req).2.sessions = st.sessions := by
  unfold create_order
  cases st.sessions.find? (fun s => s.isActive) with
  | none => rfl
  | some sess =>
    cases validateItems st.products req.items with
    | error e => rfl
    | ok tds =>
      obtain ⟨t, ds⟩ := tds
      exact insertItems_sessions _ _ _

theorem sessions_add_items (st : Store) (oid : Int) (lines : List CreateOrderItem) :
    (add_items_to_order st oid lines).2.sessions = st.sessions := by
  unfold add_items_to_order
  cases st.orders.find? (fun o => o.id = oid) with
  | none => rfl
  | some o =>
    dsimp only
    split
    · rfl
    · cases validateItems st.products lines with
      | error e => rfl
      | ok tds =>
        obtain ⟨t, ds⟩ := tds
        exact insertItems_sessions _ _ _

theorem sessions_mark_paid (st : Store) (oid : Int) :
    (mark_order_paid st oid).2.sessions = st.sessions := by
  unfold mark_order_paid
  dsimp only
  split <;> rfl

theorem sessions_decrease (st : Store) (iid : Int) :
    (decrease_item_quantity st iid).2.sessions = st.sessions := by
  unfold decrease_item_quantity
  cases st.items.find? (fun r => r.id = iid) with
  | none => rfl
  | some it =>
    dsimp only
    cases st.orders.find? (fun o => o.id = it.orderId) with
    | none => rfl
    | some o =>
      dsimp only
      split
      · rfl
      · split <;> (split <;> rfl)

theorem sessions_increase (st : Store) (iid : Int) :
    (increase_item_quantity st iid).2.sessions = st.sessions := by
  unfold increase_item_quantity
  cases st.items.find? (fun r => r.id = iid) with
  | none => rfl
  | some it =>
    dsimp only
    cases st.orders.find? (fun o => o.id = it.orderId) with
    | none => rfl
    | some o =>
      dsimp only
      split
      · rfl
      · cases st.products.find? (fun p => p.id = it.productId) with
        | none => rfl
        | some p =>
          dsimp only
          split <;> rfl

theorem sessions_update_notes (st : Store) (oid : Int) (c n : Option String) :
    (update_order_notes st oid c n).2.sessions = st.sessions := rfl

/-! ## The at-most-one-active-session invariant -/

theorem active_le_one_start_day (st : Store) (staffId : Int)
    (h : activeCount st ≤ 1) : activeCount (start_day st staffId).2 ≤ 1 := by
  unfold start_day
  cases hf : st.sessions.find? (fun s => s.isActive) with
  | some s => simpa using h
  | none =>
    have hz : activeCount st = 0 := by
      unfold activeCount
      rw [List.filter_eq_nil_iff.mpr]
      · rfl
      · exact List.find?_eq_none.mp hf
    dsimp only [activeCount] at hz ⊢
    simp only [Option.isSome_none, Bool.false_eq_true, if_false, List.filter_append]
    simp [List.length_append, hz]

theorem active_le_one_close_day (st : Store) (b : Except String String)
    (h : activeCount st ≤ 1) : activeCount (close_day st b).2 ≤ 1 := by
  unfold close_day
  cases hf : st.sessions.find? (fun s => s.isActive) with
  | none => exact h
  | some sess =>
    dsimp only
    split
    · exact h
    · split
      · exact h
      · have hmono : activeCount { st with sessions := st.sessions.map fun s =>
            if s.id = sess.id then
              { s with isActive := false, closedAt := some st.nowTs,
                       totalRevenue := some ((linkedOrders st sess.id).map (·.total)).sum,
                       totalOrders := some ((linkedOrders st sess.id).length : Int) }
            else s } ≤ activeCount st := by
          unfold activeCount
          dsimp only
          rw [← List.countP_eq_length_filter, ← List.countP_eq_length_filter,
            List.countP_map]
          refine List.countP_mono_left ?_
          intro s hs hact
          simp only [Function.comp] at hact
          by_cases hc : s.id = sess.id
          · rw [if_pos hc] at hact
            simp at hact
          · rw [if_neg hc] at hact
            exact hact
        cases b
        · exact le_trans hmono h
        · exact le_trans hmono h

theorem active_le_one_recovery (st : Store) (date : String)
    (h : activeCount st ≤ 1) : activeCount (create_day_closing_for_date st date).2 ≤ 1 := by
  unfold create_day_closing_for_date
  split
  · exact h
  · dsimp only
    split
    · exact h
    · unfold activeCount at h ⊢
      dsimp only
      rw [List.filter_append]
      simpa using h

theorem active_le_one_step {st st' : Store} (hs : Step st st')
    (h : activeCount st ≤ 1) : activeCount st' ≤ 1 := by
  cases hs with
  | createOrder req =>
    unfold activeCount
    rw [sessions_create_order]
    exact h
  | addItems oid lines =>
    unfold activeCount
    rw [sessions_add_items]
    exact h
  | markPaid oid =>
    unfold activeCount
    rw [sessions_mark_paid]
    exact h
  | decrease iid =>
    unfold activeCount
    rw [sessions_decrease]
    exact h
  | increase iid =>
    unfold activeCount
    rw [sessions_increase]
    exact h
  | notes oid c n =>
    unfold activeCount
    rw [sessions_update_notes]
    exact h
  | startDay staffId => exact active_le_one_start_day st staffId h
  | closeDay b => exact active_le_one_close_day st b h
  | recovery date => exact active_le_one_recovery st date h

/-! ## Further helper lemmas for the claim theorems -/

theorem validateItems_fails (ps : List ProductRow) (lines : List CreateOrderItem)
    (h : ∃ l ∈ lines, lineFails ps l) : ∃ e, validateItems ps lines = .error e := by
  induction lines with
  | nil => simp at h
  | cons line rest ih =>
    obtain ⟨l, hl, hfail⟩ := h
    rcases List.mem_cons.mp hl with rfl | hl
    · unfold validateItems
      rcases hfail with hnone | ⟨p, hp, hlt⟩
      · rw [hnone]
        exact ⟨_, rfl⟩
      · rw [hp]
        dsimp only
        rw [if_pos hlt]
        exact ⟨_, rfl⟩
    · unfold validateItems
      cases hf : ps.find? (fun p => p.id = line.productId) with
      | none => exact ⟨_, rfl⟩
      | some p =>
        dsimp only
        by_cases hlt : p.quantity < line.quantity
        · rw [if_pos hlt]
          exact ⟨_, rfl⟩
        · rw [if_neg hlt]
          obtain ⟨e, he⟩ := ih ⟨l, hl, hfail⟩
          rw [he]
          exact ⟨e, rfl⟩

theorem find?_map_of_pred {α : Type _} (l : List α) (g : α → α) (p : α → Bool)
    (hp : ∀ a, p (g a) = p a) : (l.map g).find? p = (l.find? p).map g := by
  induction l with
  | nil => rfl
  | cons a l ih =>
    simp only [List.map_cons]
    by_cases ha : p a = true
    · rw [List.find?_cons_of_pos _ (by rw [hp]; exact ha), List.find?_cons_of_pos _ ha]
      rfl
    · rw [List.find?_cons_of_neg _ (by rw [hp]; exact ha), List.find?_cons_of_neg _ ha, ih]

theorem find?_append_of {α : Type _} (l₁ : List α) (x : α) (l₂ : List α) (p : α → Bool)
    (h₁ : ∀ r ∈ l₁, ¬ p r = true) (hx : p x = true) :
    (l₁ ++ x :: l₂).find? p = some x := by
  induction l₁ with
  | nil => exact List.find?_cons_of_pos _ hx
  | cons a l ih =>
    rw [List.cons_append, List.find?_cons_of_neg _ (h₁ a (List.mem_cons_self a l)),
      ih (fun r hr => h₁ r (List.mem_cons_of_mem a hr))]

theorem baseStore_wf : WF baseStore := by
  unfold WF totalsOk
  decide

/-! ## The claims -/

/-- Claim C1 (failing input): the stock invariant fails on the code.  With
product 1 at stock 3 and an active session, the CreateOrder request
`c1Req` — two lines of quantity 2 for the same product — passes the
per-line validation (each line alone is within the stock snapshot read
during validation), succeeds, and leaves `quantityOnHand = -1`, against
the spec's `quantityOnHand ≥ 0` invariant and its demand that a request
collectively exceeding stock be rejected with InsufficientStock. -/
theorem C1_stock_goes_negative_on_duplicate_lines :
    stockOf baseStore 1 = some 3 ∧
    isOkB (create_order baseStore c1Req).1 = true ∧
    stockOf (create_order baseStore c1Req).2 1 = some (-1) := by
  refine ⟨rfl, rfl, rfl⟩

/-- Claim C2 (counterexample to the claim as stated): `create_order`
accepts a zero-quantity line (stock 3 < 0 is false, so validation
passes), and a subsequent successful `decrease_item_quantity` on that
line deletes the item yet still subtracts its `priceAtSale` from the
order total, leaving an open order whose stored total differs from
Σ quantity × priceAtSale over its items. -/
theorem C2_counterexample_zero_quantity_line :
    isOkB (create_order baseStore c2BadReq).1 = true ∧
    isOkB (decrease_item_quantity c2MidStore 1).1 = true ∧
    ∃ o ∈ c2EndStore.orders, o.status = "open" ∧
      ¬ o.total = itemsTotal c2EndStore.items o.id := by
  refine ⟨rfl, rfl,
    ⟨{ id := 1, staffId := 1, tableNumber := 5,
       total := (5 : Rat) * ((0 : Int) : Rat) + ((5 : Rat) * ((1 : Int) : Rat) + 0) - 5,
       customerName := none, notes := none, status := "open", sessionId := some 1,
       createdDate := "2024-01-01", createdAt := "ts1" }, ?_, rfl, ?_⟩⟩
  · exact List.mem_cons_self _ _
  · have hit : itemsTotal c2EndStore.items 1 = (5 : Rat) * ((1 : Int) : Rat) + 0 := rfl
    dsimp only
    rw [hit]
    push_cast
    norm_num

/-- Claim C2 (amended): starting from a well-formed store, after any
sequence of successful-or-failed core operations whose CreateOrder and
AddItems request lines all carry quantity ≥ 1 (the `OrderItem.quantity ≥ 1`
data-model constraint, which the code does not itself validate), every
order with status Open has total = Σ quantity × priceAtSale over its
current items. -/
theorem C2_open_order_total_invariant (st st' : Store) (h : WF st)
    (hr : ReachPos st st') :
    ∀ o ∈ st'.orders, o.status = "open" → o.total = itemsTotal st'.items o.id :=
  (wf_reachPos h hr).2.2.2.2.2

theorem C2_open_order_total_invariant_witness :
    c2PosOrder.total = itemsTotal c2PosStore.items c2PosOrder.id :=
  C2_open_order_total_invariant baseStore c2PosStore baseStore_wf
    (Relation.ReflTransGen.single (StepPos.createOrder baseStore c2PosReq (by decide)))
    c2PosOrder (List.mem_cons_self _ _) rfl

/-- Claim C3: at most one `DaySession` is active at any instant: from any
store with at most one active session, any sequence of core operations
(`start_day` refuses to insert a row while one is active, `close_day`
only ever flips sessions to inactive, the recovery routine inserts
sessions pre-marked inactive, and the order operations leave the
session table untouched) again yields at most one active session. -/
theorem C3_at_most_one_active_session (st st' : Store)
    (h : activeCount st ≤ 1) (hr : Reach st st') : activeCount st' ≤ 1 := by
  induction hr with
  | refl => exact h
  | tail _ hbc ih => exact active_le_one_step hbc ih

theorem C3_at_most_one_active_session_witness :
    activeCount (start_day noSessionStore 1).2 ≤ 1 :=
  C3_at_most_one_active_session noSessionStore (start_day noSessionStore 1).2 (by decide)
    (Relation.ReflTransGen.single (Step.startDay noSessionStore 1))

/-- Claim C9: the auto-backup outcome never affects `close_day`: for every
store, the command's returned value and resulting store are identical
whatever the backup write's outcome (success path or I/O failure), so a
failing Snapshot Exporter can neither fail the close nor roll it back;
the source only logs the difference. -/
theorem C9_backup_outcome_never_affects_close (st : Store)
    (b₁ b₂ : Except String String) : close_day st b₁ = close_day st b₂ := by
  unfold close_day
  cases st.sessions.find? (fun s => s.isActive) with
  | none => rfl
  | some sess =>
    dsimp only
    split
    · rfl
    · split
      · rfl
      · cases b₁ <;> cases b₂ <;> rfl

/-- Claim C4: `close_day` fails `NoActiveSession` (leaving the store
untouched) when no session is active; with an active session it
computes `totalRevenue` as the sum of `total` over ALL orders linked to
the session regardless of status, and `totalOrderCount` as their count;
fails `EmptySession` when the count is 0; fails `OpenOrdersRemain(n)`
(store untouched, session still active) when `n > 0` linked orders are
open; otherwise flips the session to inactive, sets `closedAt`,
freezes the totals on the session row, and returns the closed session. -/
theorem C4_close_day_spec (st : Store) (b : Except String String) :
    (st.sessions.find? (fun s => s.isActive) = none →
      close_day st b = (.error .noActiveSession, st)) ∧
    (∀ sess, st.sessions.find? (fun s => s.isActive) = some sess →
      ((linkedOrders st sess.id).length = 0 →
        close_day st b = (.error .emptySession, st)) ∧
      ((linkedOrders st sess.id).length ≠ 0 →
        0 < ((linkedOrders st sess.id).filter (fun o => o.status = "open")).length →
        close_day st b =
          (.error (.openOrdersRemain
            (((linkedOrders st sess.id).filter (fun o => o.status = "open")).length)), st)) ∧
      ((linkedOrders st sess.id).length ≠ 0 →
        ((linkedOrders st sess.id).filter (fun o => o.status = "open")).length = 0 →
        close_day st b =
          (.ok { id := sess.id, date := sess.date, startedBy := sess.startedBy,
                 startedByName := (st.staff.find? (fun x => x.id = sess.startedBy)).map (·.name),
                 startedAt := sess.startedAt, closedAt := some st.nowTs, isActive := false,
                 totalRevenue := some ((linkedOrders st sess.id).map (·.total)).sum,
                 totalOrders := some ((linkedOrders st sess.id).length : Int) },
           { st with sessions := st.sessions.map fun s =>
               if s.id = sess.id then
                 { s with isActive := false, closedAt := some st.nowTs,
                          totalRevenue := some ((linkedOrders st sess.id).map (·.total)).sum,
                          totalOrders := some ((linkedOrders st sess.id).length : Int) }
               else s }))) := by
  refine ⟨?_, ?_⟩
  · intro hnone
    unfold close_day
    rw [hnone]
  · intro sess hsome
    refine ⟨?_, ?_, ?_⟩
    · intro hzero
      unfold close_day
      rw [hsome]
      dsimp only
      rw [if_pos hzero]
    · intro hnz hopen
      unfold close_day
      rw [hsome]
      dsimp only
      rw [if_neg hnz, if_pos hopen]
    · intro hnz hnoopen
      unfold close_day
      rw [hsome]
      dsimp only
      rw [if_neg hnz, if_neg (by rw [hnoopen]; exact lt_irrefl 0)]
      cases b <;> rfl

theorem C4_close_day_spec_witness :
    isOkB (close_day c4Store (Except.ok "")).1 = true := by
  rw [((C4_close_day_spec c4Store (Except.ok "")).2 c4Sess (by decide)).2.2
    (by decide) (by decide)]
  rfl

/-- Claim C5: `create_order` and `add_items_to_order` are all-or-nothing:
whenever any requested line fails validation (missing product, or
requested quantity above the product's stock), the command returns an
error with the store completely unchanged — no order row, no items, no
total change, no stock deduction. -/
theorem C5_create_and_add_all_or_nothing (st : Store) (req : CreateOrderReq)
    (oid : Int) (lines : List CreateOrderItem) :
    ((∃ l ∈ req.items, lineFails st.products l) →
      ∃ e, create_order st req = (.error e, st)) ∧
    ((∃ l ∈ lines, lineFails st.products l) →
      ∃ e, add_items_to_order st oid lines = (.error e, st)) := by
  constructor
  · intro h
    unfold create_order
    cases st.sessions.find? (fun s => s.isActive) with
    | none => exact ⟨.dayNotStarted, rfl⟩
    | some sess =>
      obtain ⟨e, he⟩ := validateItems_fails st.products req.items h
      rw [he]
      exact ⟨e, rfl⟩
  · intro h
    unfold add_items_to_order
    cases st.orders.find? (fun o => o.id = oid) with
    | none => exact ⟨.orderNotFound, rfl⟩
    | some o =>
      dsimp only
      split
      · exact ⟨.cannotAddToPaid, rfl⟩
      · obtain ⟨e, he⟩ := validateItems_fails st.products lines h
        rw [he]
        exact ⟨e, rfl⟩

theorem C5_create_and_add_all_or_nothing_witness :
    (∃ e, create_order baseStore c5Req = (.error e, baseStore)) ∧
    (∃ e, add_items_to_order baseStore 1 c5Req.items = (.error e, baseStore)) := by
  have hfail : ∃ l ∈ c5Req.items, lineFails baseStore.products l :=
    ⟨{ productId := 1, quantity := 4 }, List.mem_cons_self _ _,
     Or.inr ⟨{ id := 1, name := "Beer", price := 5, quantity := 3 }, rfl, by decide⟩⟩
  exact ⟨(C5_create_and_add_all_or_nothing baseStore c5Req 1 c5Req.items).1 hfail,
         (C5_create_and_add_all_or_nothing baseStore c5Req 1 c5Req.items).2 hfail⟩

/-- Claim C6: `mark_order_paid` is the single conditional update
`UPDATE orders SET status='paid' WHERE id=? AND status='open'`: when no
open order carries the id (absent or already paid) it fails
`NotFoundOrAlreadyPaid` with the store unchanged; when one does, it
succeeds, the only change is that status flip, and every order's id and
total as well as the items, product stocks and sessions are unchanged. -/
theorem C6_mark_paid_spec (st : Store) (oid : Int) :
    ((¬ ∃ o ∈ st.orders, o.id = oid ∧ o.status = "open") →
      mark_order_paid st oid = (.error .notFoundOrAlreadyPaid, st)) ∧
    ((∃ o ∈ st.orders, o.id = oid ∧ o.status = "open") →
      isOkB (mark_order_paid st oid).1 = true ∧
      (mark_order_paid st oid).2 =
        { st with orders := st.orders.map fun r =>
            if r.id = oid ∧ r.status = "open" then { r with status := "paid" } else r } ∧
      (mark_order_paid st oid).2.orders.map (fun r => (r.id, r.total)) =
        st.orders.map (fun r => (r.id, r.total)) ∧
      (mark_order_paid st oid).2.items = st.items ∧
      (mark_order_paid st oid).2.products = st.products ∧
      (mark_order_paid st oid).2.sessions = st.sessions) := by
  have hgid : ∀ a : OrderRow,
      ((if a.id = oid ∧ a.status = "open" then { a with status := "paid" } else a) :
        OrderRow).id = a.id := fun a => by split <;> rfl
  have hgtot : ∀ a : OrderRow,
      ((if a.id = oid ∧ a.status = "open" then { a with status := "paid" } else a) :
        OrderRow).total = a.total := fun a => by split <;> rfl
  constructor
  · intro hno
    have hnone : ∀ r ∈ st.orders, ¬ (r.id = oid ∧ r.status = "open") :=
      fun r hr hc => hno ⟨r, hr, hc⟩
    have hfil : st.orders.filter (fun r => r.id = oid ∧ r.status = "open") = [] :=
      List.filter_eq_nil_iff.mpr (fun r hr => by simpa using hnone r hr)
    have hmap : (st.orders.map fun r =>
        if r.id = oid ∧ r.status = "open" then { r with status := "paid" } else r) =
        st.orders :=
      list_map_id_of _ _ (fun r hr => if_neg (hnone r hr))
    unfold mark_order_paid
    dsimp only
    rw [hfil, hmap]
    rfl
  · intro hex
    have hlen : (st.orders.filter (fun r => r.id = oid ∧ r.status = "open")).length ≠ 0 := by
      obtain ⟨o, ho, hc⟩ := hex
      have hmem : o ∈ st.orders.filter (fun r => r.id = oid ∧ r.status = "open") :=
        List.mem_filter.mpr ⟨ho, by simpa using hc⟩
      intro h0
      rw [List.length_eq_zero] at h0
      rw [h0] at hmem
      simp at hmem
    have hfind : ∃ o', st.orders.find? (fun r => r.id = oid) = some o' := by
      obtain ⟨o, ho, hc⟩ := hex
      exact Option.isSome_iff_exists.mp
        (List.find?_isSome.mpr ⟨o, ho, by simpa using hc.1⟩)
    obtain ⟨o', ho'⟩ := hfind
    have hfind1 : (st.orders.map fun r =>
        if r.id = oid ∧ r.status = "open" then { r with status := "paid" } else r).find?
          (fun r => r.id = oid) =
        some (if o'.id = oid ∧ o'.status = "open" then { o' with status := "paid" } else o') := by
      rw [find?_map_of_pred _ _ _ (fun a => by rw [hgid a]), ho']
      rfl
    unfold mark_order_paid
    dsimp only
    rw [if_neg hlen]
    refine ⟨?_, rfl, ?_, rfl, rfl, rfl⟩
    · unfold get_order
      rw [hfind1]
      rfl
    · rw [List.map_map]
      exact List.map_congr_left fun a _ => by
        simp only [Function.comp]
        rw [hgid a, hgtot a]

theorem C6_mark_paid_spec_witness :
    isOkB (mark_order_paid c6Store 1).1 = true :=
  ((C6_mark_paid_spec c6Store 1).2 (by decide)).1

/-- Claim C10: `update_order_notes` succeeds for every existing order —
including a Paid one, since it performs no status check — replacing
exactly the order's `customer_name` and `notes`, and leaving every
order's id, status and total, the items, the product stocks, the
sessions and the staff unchanged. -/
theorem C10_update_notes_spec (st : Store) (oid : Int) (o : OrderRow)
    (c n : Option String)
    (hf : st.orders.find? (fun r => r.id = oid) = some o) :
    (∃ v, (update_order_notes st oid c n).1 = .ok v) ∧
    (update_order_notes st oid c n).2.orders.find? (fun r => r.id = oid) =
      some { o with customerName := c, notes := n } ∧
    (update_order_notes st oid c n).2.orders.map (fun r => (r.id, r.status, r.total)) =
      st.orders.map (fun r => (r.id, r.status, r.total)) ∧
    (update_order_notes st oid c n).2.items = st.items ∧
    (update_order_notes st oid c n).2.products = st.products ∧
    (update_order_notes st oid c n).2.sessions = st.sessions ∧
    (update_order_notes st oid c n).2.staff = st.staff := by
  have hoid : o.id = oid := by simpa using List.find?_some hf
  have hgid : ∀ a : OrderRow,
      ((if a.id = oid then { a with customerName := c, notes := n } else a) :
        OrderRow).id = a.id := fun a => by split <;> rfl
  have hfind1 : (st.orders.map fun r =>
      if r.id = oid then { r with customerName := c, notes := n } else r).find?
        (fun r => r.id = oid) = some { o with customerName := c, notes := n } := by
    rw [find?_map_of_pred _ _ _ (fun a => by rw [hgid a]), hf]
    dsimp only [Option.map]
    rw [if_pos hoid]
  refine ⟨?_, hfind1, ?_, rfl, rfl, rfl, rfl⟩
  · unfold update_order_notes get_order
    dsimp only
    rw [hfind1]
    exact ⟨_, rfl⟩
  · unfold update_order_notes
    dsimp only
    rw [List.map_map]
    exact List.map_congr_left fun a _ => by
      simp only [Function.comp]
      split <;> rfl

theorem C10_update_notes_spec_witness :
    (update_order_notes c4Store 1 (some "Bob") (some "birthday")).2.orders.find?
      (fun r => r.id = 1) =
    some { c4Order with customerName := some "Bob", notes := some "birthday" } :=
  (C10_update_notes_spec c4Store 1 c4Order (some "Bob") (some "birthday") (by decide)).2.1

/-- Claim C8 (counterexample to the claim as stated): in `c8Store`, zero
orders of 2024-01-02 carry a null session reference (its only order of
that date is already linked to session 1) and no closed session exists
for 2024-01-02 — the claim demands failure — yet
`create_day_closing_for_date` succeeds: its aggregation query counts
ALL orders of the calendar date, with no `session_id IS NULL` filter. -/
theorem C8_counterexample_linked_orders_counted :
    (c8Store.orders.filter
      (fun o => o.createdDate = "2024-01-02" ∧ o.sessionId = none)).length = 0 ∧
    c8Store.sessions.find?
      (fun s => s.date = some "2024-01-02" ∧ s.isActive = false) = none ∧
    isOkB (create_day_closing_for_date c8Store "2024-01-02").1 = true := by
  refine ⟨rfl, rfl, rfl⟩

/-- Claim C8 (amended): `create_day_closing_for_date` fails when a closed
session already exists for the date; fails when zero orders — of any
session linkage — match the calendar date; otherwise it aggregates the
totals and count over ALL orders matching the date (including ones
already linked to sessions), inserts a session row pre-marked closed
with those frozen totals and the synthetic start timestamp
`date ++ " 00:00:00"`, and backfills the session reference only on the
matching-date orders whose session reference is null. -/
theorem C8_recovery_spec (st : Store) (date : String) :
    ((st.sessions.find? (fun s => s.date = some date ∧ s.isActive = false)).isSome = true →
      create_day_closing_for_date st date = (.error (.closedSessionExists date), st)) ∧
    (st.sessions.find? (fun s => s.date = some date ∧ s.isActive = false) = none →
      ((st.orders.filter (fun o => o.createdDate = date)).length = 0 →
        create_day_closing_for_date st date = (.error (.noOrdersForDate date), st)) ∧
      ((st.orders.filter (fun o => o.createdDate = date)).length ≠ 0 →
        create_day_closing_for_date st date =
          (.ok { id := st.nextSessionId, date := some date,
                 startedBy := ((st.staff.head?).map (·.id)).getD 1,
                 startedByName := (st.staff.find? (fun s =>
                     s.id = ((st.staff.head?).map (·.id)).getD 1)).map (·.name),
                 startedAt := date ++ " 00:00:00", closedAt := some st.nowTs,
                 isActive := false,
                 totalRevenue :=
                   some ((st.orders.filter (fun o => o.createdDate = date)).map (·.total)).sum,
                 totalOrders :=
                   some ((st.orders.filter (fun o => o.createdDate = date)).length : Int) },
           { st with
               sessions := st.sessions ++
                 [{ id := st.nextSessionId, date := some date,
                    startedBy := ((st.staff.head?).map (·.id)).getD 1,
                    startedAt := date ++ " 00:00:00", isActive := false,
                    closedAt := some st.nowTs,
                    totalRevenue :=
                      some ((st.orders.filter (fun o => o.createdDate = date)).map (·.total)).sum,
                    totalOrders :=
                      some ((st.orders.filter (fun o => o.createdDate = date)).length : Int) }],
               nextSessionId := st.nextSessionId + 1,
               orders := st.orders.map fun o =>
                 if o.createdDate = date ∧ o.sessionId = none then
                   { o with sessionId := some st.nextSessionId }
                 else o }))) := by
  constructor
  · intro hsome
    unfold create_day_closing_for_date
    rw [if_pos hsome]
  · intro hnone
    constructor
    · intro hzero
      unfold create_day_closing_for_date
      rw [if_neg (by rw [hnone]; simp)]
      dsimp only
      rw [if_pos hzero]
    · intro hnz
      unfold create_day_closing_for_date
      rw [if_neg (by rw [hnone]; simp)]
      dsimp only
      rw [if_neg hnz]

theorem C8_recovery_spec_witness :
    isOkB (create_day_closing_for_date c8wStore "2024-01-01").1 = true := by
  rw [((C8_recovery_spec c8wStore "2024-01-01").2 (by decide)).2 (by decide)]
  rfl

theorem c7Store_wf : WF c7Store := by
  refine ⟨by decide, by decide, by decide, by decide, by decide, ?_⟩
  intro o ho hop
  have ho' : o = c7Order := List.mem_singleton.mp ho
  subst ho'
  have h15 : itemsTotal c7Store.items c7Order.id =
      (5 : Rat) * ((2 : Int) : Rat) + ((5 : Rat) * ((1 : Int) : Rat) + 0) := rfl
  rw [h15]
  show (15 : Rat) = _
  push_cast
  norm_num

/-- Claim C7: for an existing order item whose order exists and is open,
`decrease_item_quantity` deletes the item when its quantity is ≤ 1 and
otherwise decrements it by 1; in both cases it restores exactly one
unit to the item's product and subtracts the item's `priceAtSale` from
the order's total; and when the order is left with zero items the order
row itself is deleted and the command returns `ok none` — signalling
that the order no longer exists — instead of an order view. -/
theorem C7_decrease_item_spec (st : Store) (iid : Int) (it : ItemRow) (o : OrderRow)
    (hwf : WF st)
    (hfi : st.items.find? (fun r => r.id = iid) = some it)
    (hfo : st.orders.find? (fun r => r.id = it.orderId) = some o)
    (hopen : o.status = "open") :
    (decrease_item_quantity st iid).2.products =
      updateProductQty st.products it.productId 1 ∧
    (it.quantity ≤ 1 →
      (decrease_item_quantity st iid).2.items.find? (fun r => r.id = iid) = none) ∧
    (¬ it.quantity ≤ 1 →
      (decrease_item_quantity st iid).2.items.find? (fun r => r.id = iid) =
        some { it with quantity := it.quantity - 1 }) ∧
    (((decrease_item_quantity st iid).2.items.filter
        (fun r => r.orderId = it.orderId)).length = 0 →
      (decrease_item_quantity st iid).1 = .ok none ∧
      (decrease_item_quantity st iid).2.orders.find? (fun r => r.id = it.orderId) = none) ∧
    (((decrease_item_quantity st iid).2.items.filter
        (fun r => r.orderId = it.orderId)).length ≠ 0 →
      (∃ v, (decrease_item_quantity st iid).1 = .ok (some v)) ∧
      (decrease_item_quantity st iid).2.orders.find? (fun r => r.id = it.orderId) =
        some { o with total := o.total - it.priceAtSale }) := by
  obtain ⟨hOrd, hItOrd, hItId, hNd, hQty, hTot⟩ := hwf
  have hitid : it.id = iid := by simpa using List.find?_some hfi
  have hoid : o.id = it.orderId := by simpa using List.find?_some hfo
  obtain ⟨l₁, l₂, hl, h₁, h₂, _⟩ := find?_id_decomp st.items iid it hfi hNd
  have hgid : ∀ a : OrderRow,
      ((if a.id = it.orderId then { a with total := a.total - it.priceAtSale } else a) :
        OrderRow).id = a.id := fun a => by split <;> rfl
  have hordfind : (st.orders.map fun r =>
      if r.id = it.orderId then { r with total := r.total - it.priceAtSale } else r).find?
        (fun r => r.id = it.orderId) = some { o with total := o.total - it.priceAtSale } := by
    rw [find?_map_of_pred _ _ _ (fun a => by rw [hgid a]), hfo]
    dsimp only [Option.map]
    rw [if_pos hoid]
  unfold decrease_item_quantity
  rw [hfi]
  dsimp only
  rw [hfo]
  dsimp only
  rw [if_neg (fun hne => hne hopen)]
  by_cases hqle : it.quantity ≤ 1
  · simp only [if_pos hqle]
    by_cases hrem : ((st.items.filter (fun r => ¬ r.id = iid)).filter
        (fun r => r.orderId = it.orderId)).length = 0
    · simp only [if_pos hrem]
      refine ⟨by trivial, ?_, ?_, ?_, ?_⟩
      · intro _
        refine List.find?_eq_none.mpr ?_
        intro r hr
        have := (List.mem_filter.mp hr).2
        simpa using this
      · intro hq2
        exact absurd hqle hq2
      · intro _
        refine ⟨by trivial, List.find?_eq_none.mpr ?_⟩
        intro r hr
        have := (List.mem_filter.mp hr).2
        simpa using this
      · intro hcon
        exact absurd hrem hcon
    · simp only [if_neg hrem]
      refine ⟨by trivial, ?_, ?_, ?_, ?_⟩
      · intro _
        refine List.find?_eq_none.mpr ?_
        intro r hr
        have := (List.mem_filter.mp hr).2
        simpa using this
      · intro hq2
        exact absurd hqle hq2
      · intro h0
        exact absurd h0 hrem
      · intro _
        constructor
        · unfold get_order
          rw [hordfind]
          exact ⟨_, rfl⟩
        · exact hordfind
  · simp only [if_neg hqle]
    have hmap : st.items.map (fun r =>
        if r.id = iid then { r with quantity := r.quantity - 1 } else r) =
        l₁ ++ ({ it with quantity := it.quantity - 1 } : ItemRow) :: l₂ := by
      rw [hl, List.map_append, List.map_cons, if_pos hitid,
        list_map_id_of l₁ _ (fun a ha => if_neg (h₁ a ha)),
        list_map_id_of l₂ _ (fun a ha => if_neg (h₂ a ha))]
    by_cases hrem : ((st.items.map (fun r =>
        if r.id = iid then { r with quantity := r.quantity - 1 } else r)).filter
        (fun r => r.orderId = it.orderId)).length = 0
    · simp only [if_pos hrem]
      refine ⟨by trivial, ?_, ?_, ?_, ?_⟩
      · intro hq1
        exact absurd hq1 hqle
      · intro _
        rw [hmap]
        exact find?_append_of l₁ _ l₂ _ (fun r hr => by simpa using h₁ r hr)
          (by simp [hitid])
      · intro _
        refine ⟨by trivial, List.find?_eq_none.mpr ?_⟩
        intro r hr
        have := (List.mem_filter.mp hr).2
        simpa using this
      · intro hcon
        exact absurd hrem hcon
    · simp only [if_neg hrem]
      refine ⟨by trivial, ?_, ?_, ?_, ?_⟩
      · intro hq1
        exact absurd hq1 hqle
      · intro _
        rw [hmap]
        exact find?_append_of l₁ _ l₂ _ (fun r hr => by simpa using h₁ r hr)
          (by simp [hitid])
      · intro h0
        exact absurd h0 hrem
      · intro _
        constructor
        · unfold get_order
          rw [hordfind]
          exact ⟨_, rfl⟩
        · exact hordfind

theorem C7_decrease_item_spec_witness :
    (decrease_item_quantity c7Store 1).2.products =
      updateProductQty c7Store.products c7Item1.productId 1 :=
  (C7_decrease_item_spec c7Store 1 c7Item1 c7Order c7Store_wf (by decide) (by decide) rfl).1

end Menubar
